import Mathlib

/-!
Verification of the slide-step framework in
`WebContent/tcBundle/js/slide_step/step_ctrl.js`.

The JavaScript file defines two components:
* `Animation` — one visual transition with a `prepare`/`play`/`finish`
  lifecycle and `ready`/`played` flags;
* `StepCtrl` — a controller holding a step list and a cursor
  (`currentStep`), navigated with `nextStep`/`previousStep`.

The embedding below models the browser environment explicitly:
* the DOM is a map from CSS selectors to element records (only the
  properties the script reads back — layout numbers and inner html —
  are kept as state);
* every jQuery/Snap/console/page-navigation call the script makes is
  recorded as an event in a trace, and the calls whose effect the
  script later reads back (`.html(...)`) also update the DOM state;
* the mutable fields of an `Animation` instance (`ready`, `played`,
  `__old_text`) are split into an `AnimState` value that the lifecycle
  functions thread through, while the fields that are only written at
  construction time (`type`, `target`, `duration`, `easing` and the
  options) form the immutable `AnimCfg`/`Anim` tree ("set" animations
  hold a list of child animations).
-/

/-- Chars-based prefix test, the semantics of JavaScript
`String.prototype.startsWith` used in `Animation.prototype.finish`. -/
def strStartsWith (s p : String) : Bool :=
  s.data.take p.data.length == p.data

/-- One DOM element: the layout numbers the script reads
(`position().top/left`, `width()`, `height()`) and its inner html. -/
structure Elem where
  posTop : Int
  posLeft : Int
  width : Int
  height : Int
  html : String

/-- The document: an element for every selector, plus the window size
read by `Animation.moveOutside`. -/
structure Dom where
  elem : String → Elem
  winWidth : Int
  winHeight : Int

/-- Calls the script makes against its collaborators (jQuery, Snap,
`console`, `prettyPrint`, and the host page navigation functions). -/
inductive Ev where
  | cssSetS (target key value : String)
  | cssSetI (target key : String) (value : Int)
  | jqHide (target : String)
  | jqFadeIn (target : String) (duration : Int) (easing : String)
  | jqFadeOut (target : String) (duration : Int)
  | jqAnimateTopLeft0 (target : String) (duration : Int) (easing : String)
  | jqFinish (target : String)
  | snapAttr (target key value : String)
  | snapAnimate (target attr value : String) (duration : Int)
  | snapStopAll (target : String)
  | htmlSet (target value : String)
  | removePrettyprintedCls
  | prettyPrintCall
  | consoleErrorUnsupportedAnimation
  | consoleErrorUnsupportedStep
  | consoleLogObj
  | beforePlayHook
  | afterPlayHook
  | customPlayHook
  | customPrepareHook
  | customFinishHook
  | nextPageCall
  | previousPageCall
deriving DecidableEq

/-- The browser state threaded through the embedding: the DOM plus the
trace of collaborator calls made so far (in order). -/
structure St where
  dom : Dom
  trace : List Ev

/-- Record one collaborator call. -/
def St.emit (st : St) (e : Ev) : St :=
  { st with trace := st.trace ++ [e] }

/-- Embeds `$(target).html()` — read the inner html. -/
def St.getHtml (st : St) (target : String) : String :=
  (st.dom.elem target).html

/-- Embeds `$(target).html(value)` — write the inner html (kept as DOM state
because the script reads it back) and record the call. -/
def St.setHtml (st : St) (target value : String) : St :=
  { dom := { st.dom with
      elem := fun s =>
        if s == target then { st.dom.elem s with html := value }
        else st.dom.elem s },
    trace := st.trace ++ [Ev.htmlSet target value] }

/-- The construction-time fields of an `Animation` instance: the four
constructor parameters and the recognized option fields
(`from`, `late_prepare`, `no_reverse`, `text`, `toX`/`toY`/`fromX`/`fromY`;
`from` is renamed `from_` as `from` is a Lean keyword). -/
structure AnimCfg where
  type : String
  target : String
  duration : Int
  easing : String
  from_ : String
  late_prepare : Bool
  no_reverse : Bool
  text : String
  toX : String
  toY : String
  fromX : String
  fromY : String

/-- An animation: its configuration plus, for the "set" kind, the child
animations from `options.animations`. -/
inductive Anim where
  | mk (cfg : AnimCfg) (animations : List Anim)

def Anim.cfg : Anim → AnimCfg
  | .mk c _ => c

def Anim.animations : Anim → List Anim
  | .mk _ l => l

/-- The mutable fields of an `Animation` instance: `ready`, `played`,
`__old_text` (`none` models the JavaScript `undefined`), and the states
of the child animations of a "set". -/
inductive AnimState where
  | mk (ready played : Bool) (old_text : Option String)
       (children : List AnimState)

def AnimState.ready : AnimState → Bool
  | .mk r _ _ _ => r

def AnimState.played : AnimState → Bool
  | .mk _ p _ _ => p

def AnimState.old_text : AnimState → Option String
  | .mk _ _ o _ => o

def AnimState.children : AnimState → List AnimState
  | .mk _ _ _ c => c

mutual
/-- The freshly constructed state: `this.ready = false`,
`this.played = false`, `__old_text` unset. -/
def AnimState.initial : Anim → AnimState
  | .mk _ l => .mk false false none (AnimState.initialList l)
def AnimState.initialList : List Anim → List AnimState
  | [] => []
  | a :: rest => AnimState.initial a :: AnimState.initialList rest
end

/-- Embeds `Animation.moveOutside(target, direction)` — positions the target
out of sight with computed `css("top"/"left", ...)` writes; an unknown
direction falls through the switch. -/
def moveOutside (st : St) (target direction : String) : St :=
  match direction with
  | "up" =>
      st.emit (.cssSetI target "top"
        (-(st.dom.elem target).posTop - (st.dom.elem target).height))
  | "down" =>
      st.emit (.cssSetI target "top"
        ((st.dom.winHeight - (st.dom.elem target).posTop)
          + (st.dom.elem target).height))
  | "left" =>
      st.emit (.cssSetI target "left"
        (-(st.dom.elem target).posLeft - (st.dom.elem target).width))
  | "right" =>
      st.emit (.cssSetI target "left"
        ((st.dom.winWidth - (st.dom.elem target).posLeft)
          + (st.dom.elem target).width))
  | _ => st

mutual
/-- Embeds `Animation.prototype.finish` — cancel any in-flight transition:
svg kinds stop every running Snap animation on the target, "set"
recurses over the children, "custom" delegates to the hook, everything
else calls jQuery `finish()`.  No flags are written. -/
def Anim.finish (a : Anim) (st : St) : St :=
  match a with
  | .mk c anims =>
    if strStartsWith c.type "svg" then
      st.emit (.snapStopAll c.target)
    else if c.type == "set" then
      Anim.finishList anims st
    else if c.type == "custom" then
      st.emit .customFinishHook
    else
      st.emit (.jqFinish c.target)
/-- The `for` loop of the "set" branch of `finish`. -/
def Anim.finishList (l : List Anim) (st : St) : St :=
  match l with
  | [] => st
  | a :: rest => Anim.finishList rest (Anim.finish a st)
end

mutual
/-- Embeds `Animation.prototype.prepare` — the two guard returns
(`late_prepare && !ready`, `no_reverse && ready && played`), then
`finish()`, the kind switch, and `this.ready = true`. -/
def Anim.prepare (a : Anim) (s : AnimState) (st : St) : AnimState × St :=
  if a.cfg.late_prepare && !s.ready then (s, st)
  else if a.cfg.no_reverse && s.ready && s.played then (s, st)
  else
    match a, s with
    | .mk c anims, .mk r p o cs =>
      let st := Anim.finish (.mk c anims) st
      let (s, st) :=
        match c.type with
        | "fadeIn" => (AnimState.mk r p o cs, st.emit (.cssSetS c.target "visibility" "hidden"))
        | "fadeOut" => (AnimState.mk r p o cs, st.emit (.cssSetS c.target "visibility" "visible"))
        | "moveIn" =>
            (AnimState.mk r p o cs,
              moveOutside (st.emit (.cssSetS c.target "position" "relative")) c.target c.from_)
        | "svg.fadeIn" => (AnimState.mk r p o cs, st.emit (.snapAttr c.target "visibility" "hidden"))
        | "svg.move" =>
            (AnimState.mk r p o cs,
              st.emit (.snapAttr c.target "transform"
                ("translate(" ++ c.fromX ++ ", " ++ c.fromY ++ ")")))
        | "set" =>
            let (cs', st') := Anim.prepareList anims cs st
            (AnimState.mk r p o cs', st')
        | "changeText" =>
            match o with
            | none => (AnimState.mk r p (some (st.getHtml c.target)) cs, st)
            | some t => (AnimState.mk r p (some t) cs, st.setHtml c.target t)
        | "custom" => (AnimState.mk r p o cs, st.emit .customPrepareHook)
        | _ => (AnimState.mk r p o cs, st)
      (AnimState.mk true s.played s.old_text s.children, st)
/-- The `for` loop of the "set" branch of `prepare`; the child states
travel alongside the child animations. -/
def Anim.prepareList (l : List Anim) (ss : List AnimState) (st : St) :
    List AnimState × St :=
  match l, ss with
  | [], _ => ([], st)
  | _ :: _, [] => ([], st)
  | a :: rest, s :: srest =>
      let (s', st') := Anim.prepare a s st
      let (rest', st'') := Anim.prepareList rest srest st'
      (s' :: rest', st'')
end

/-- The body of `prepare` past the two guard returns (`finish()`, the
kind switch, `this.ready = true`), as a standalone definition: what a
call that is not short-circuited by a guard executes. -/
def Anim.prepareCore (a : Anim) (s : AnimState) (st : St) : AnimState × St :=
  match a, s with
  | .mk c anims, .mk r p o cs =>
    let st := Anim.finish (.mk c anims) st
    let (s, st) :=
      match c.type with
      | "fadeIn" => (AnimState.mk r p o cs, st.emit (.cssSetS c.target "visibility" "hidden"))
      | "fadeOut" => (AnimState.mk r p o cs, st.emit (.cssSetS c.target "visibility" "visible"))
      | "moveIn" =>
          (AnimState.mk r p o cs,
            moveOutside (st.emit (.cssSetS c.target "position" "relative")) c.target c.from_)
      | "svg.fadeIn" => (AnimState.mk r p o cs, st.emit (.snapAttr c.target "visibility" "hidden"))
      | "svg.move" =>
          (AnimState.mk r p o cs,
            st.emit (.snapAttr c.target "transform"
              ("translate(" ++ c.fromX ++ ", " ++ c.fromY ++ ")")))
      | "set" =>
          let (cs', st') := Anim.prepareList anims cs st
          (AnimState.mk r p o cs', st')
      | "changeText" =>
          match o with
          | none => (AnimState.mk r p (some (st.getHtml c.target)) cs, st)
          | some t => (AnimState.mk r p (some t) cs, st.setHtml c.target t)
      | "custom" => (AnimState.mk r p o cs, st.emit .customPrepareHook)
      | _ => (AnimState.mk r p o cs, st)
    (AnimState.mk true s.played s.old_text s.children, st)

mutual
/-- Embeds `Animation.prototype.play` — `beforePlay()`, the `late_prepare`
arming pass (`ready = true; played = false; prepare()`), the kind
switch (the default branch logs the unsupported animation),
`this.played = true`, `afterPlay()`. -/
def Anim.play : Anim → AnimState → St → AnimState × St
  | .mk c anims, s, st =>
    let st := st.emit .beforePlayHook
    let (s, st) :=
      if c.late_prepare then
        Anim.prepare (.mk c anims) (.mk true false s.old_text s.children) st
      else (s, st)
    let (s, st) :=
      match c.type with
      | "fadeIn" =>
          (s,
            (((st.emit (.cssSetS c.target "visibility" "visible")).emit
              (.jqHide c.target)).emit (.jqFadeIn c.target c.duration c.easing)))
      | "fadeOut" =>
          -- The source passes `(this.duration, this,easing, callback)`:
          -- a comma expression where the easing identifier is evaluated
          -- as a global; modelled as the fadeOut call with its duration
          -- (the completion callback later sets visibility hidden).
          (s, st.emit (.jqFadeOut c.target c.duration))
      | "moveIn" =>
          (s, st.emit (.jqAnimateTopLeft0 c.target c.duration c.easing))
      | "svg.fadeIn" =>
          (s,
            ((st.emit (.snapAttr c.target "visibility" "visible")).emit
              (.snapAttr c.target "opacity" "0")).emit
              (.snapAnimate c.target "opacity" "1" c.duration))
      | "svg.move" =>
          (s,
            st.emit (.snapAnimate c.target "transform"
              ("translate(" ++ c.toX ++ ", " ++ c.toY ++ ")") c.duration))
      | "set" =>
          let (cs', st') := Anim.playList anims s.children st
          (AnimState.mk s.ready s.played s.old_text cs', st')
      | "changeText" =>
          let old := st.getHtml c.target
          let st := st.setHtml c.target c.text
          let st := st.emit .removePrettyprintedCls
          let st := st.emit .prettyPrintCall
          (AnimState.mk s.ready s.played (some old) s.children, st)
      | "custom" => (s, st.emit .customPlayHook)
      | _ =>
          (s, (st.emit .consoleErrorUnsupportedAnimation).emit .consoleLogObj)
    (AnimState.mk s.ready true s.old_text s.children, st.emit .afterPlayHook)
/-- The `for` loop of the "set" branch of `play`. -/
def Anim.playList (l : List Anim) (ss : List AnimState) (st : St) :
    List AnimState × St :=
  match l, ss with
  | [], _ => ([], st)
  | _ :: _, [] => ([], st)
  | a :: rest, s :: srest =>
      let (s', st') := Anim.play a s st
      let (rest', st'') := Anim.playList rest srest st'
      (s' :: rest', st'')
end

/-- One entry of `StepCtrl.steps`: its `type` tag, and for "anim" steps
the `animation` property (config plus its current mutable state; the
property is only ever read on "anim" steps). -/
structure Step where
  type : String
  animation : Anim
  animState : AnimState

/-- The controller: the step list and the cursor `currentStep`
(a JavaScript number, hence `Int`). -/
structure Ctrl where
  steps : List Step
  currentStep : Int

/-- Embeds `this.steps[i]` — JavaScript array indexing; out-of-range and
negative indices yield `undefined` (here `none`; dereferencing it
throws, aborting the call). -/
def getStep (l : List Step) (i : Int) : Option Step :=
  if i < 0 then none else l[i.toNat]?

/-- Embeds `StepCtrl.nextStep` — the pre-execution switch (`finish()` the
current step's animation if it is an "anim" step), the clamped
increment, then the execution switch on the step at the new cursor. -/
def StepCtrl.nextStep (c : Ctrl) (st : St) : Ctrl × St :=
  match getStep c.steps c.currentStep with
  | none => (c, st)
  | some step =>
    let st := if step.type == "anim" then step.animation.finish st else st
    let cur := c.currentStep + 1
    let cur := if cur ≥ (c.steps.length : Int) then (c.steps.length : Int) - 1 else cur
    let c := { c with currentStep := cur }
    match getStep c.steps cur with
    | none => (c, st)
    | some step =>
      match step.type with
      | "prevPage" => (c, st)
      | "nextPage" => (c, st.emit .nextPageCall)
      | "anim" =>
          let (s', st) := step.animation.play step.animState st
          ({ c with steps := c.steps.set cur.toNat { step with animState := s' } }, st)
      | _ => (c, (st.emit .consoleErrorUnsupportedStep).emit .consoleLogObj)

/-- Embeds `StepCtrl.previousStep` — the reverse-execution switch on the step
at the current cursor, then the clamped decrement. -/
def StepCtrl.previousStep (c : Ctrl) (st : St) : Ctrl × St :=
  match getStep c.steps c.currentStep with
  | none => (c, st)
  | some step =>
    let r : Ctrl × St :=
      match step.type with
      | "prevPage" => (c, st.emit .previousPageCall)
      | "nextPage" => (c, st)
      | "anim" =>
          let (s', st) := step.animation.prepare step.animState st
          ({ c with steps := c.steps.set c.currentStep.toNat { step with animState := s' } }, st)
      | _ => (c, (st.emit .consoleErrorUnsupportedStep).emit .consoleLogObj)
    let cur := r.1.currentStep - 1
    ({ r.1 with currentStep := if cur < 0 then 0 else cur }, r.2)

/-- The loop body of `StepCtrl.init`: `prepare()` every "anim" step's
animation, in list order. -/
def StepCtrl.initSteps : List Step → St → List Step × St
  | [], st => ([], st)
  | s :: rest, st =>
      let (s, st) :=
        if s.type == "anim" then
          let (a', st') := s.animation.prepare s.animState st
          ({ s with animState := a' }, st')
        else (s, st)
      let (rest', st') := StepCtrl.initSteps rest st
      (s :: rest', st')

/-- Embeds `StepCtrl.init`. -/
def StepCtrl.init (c : Ctrl) (st : St) : Ctrl × St :=
  let (ss, st) := StepCtrl.initSteps c.steps st
  ({ c with steps := ss }, st)

/-- Follows the spec's words: the pre-execution stage of `nextStep` —
"if the step at the current index is an animation-step, call `finish()`
on its animation". -/
def StepCtrl.finishStage (c : Ctrl) (st : St) : St :=
  match getStep c.steps c.currentStep with
  | some step => if step.type == "anim" then step.animation.finish st else st
  | none => st

/-- Follows the spec's words: "advance the cursor by one, clamped to
the last index". -/
def StepCtrl.advanceClamp (c : Ctrl) : Ctrl :=
  let cur := c.currentStep + 1
  { c with currentStep := if cur ≥ (c.steps.length : Int) then (c.steps.length : Int) - 1 else cur }

/-- Follows the spec's words: "execute the step now at the cursor"
(the forward execution switch: previous-page-boundary is unreachable,
next-page-boundary delegates to the advance-page collaborator,
animation-step plays its animation, unknown kinds are reported). -/
def StepCtrl.execAt (c : Ctrl) (st : St) : Ctrl × St :=
  match getStep c.steps c.currentStep with
  | none => (c, st)
  | some step =>
    match step.type with
    | "prevPage" => (c, st)
    | "nextPage" => (c, st.emit .nextPageCall)
    | "anim" =>
        let (s', st) := step.animation.play step.animState st
        ({ c with steps := c.steps.set c.currentStep.toNat { step with animState := s' } }, st)
    | _ => (c, (st.emit .consoleErrorUnsupportedStep).emit .consoleLogObj)

/-- Follows the spec's words: "execute the step at the current
(pre-decrement) index" of `previousStep` (the reverse execution switch:
previous-page-boundary delegates to the retreat-page collaborator,
next-page-boundary is unreachable, animation-step prepares its
animation, unknown kinds are reported). -/
def StepCtrl.execRevAt (c : Ctrl) (st : St) : Ctrl × St :=
  match getStep c.steps c.currentStep with
  | none => (c, st)
  | some step =>
    match step.type with
    | "prevPage" => (c, st.emit .previousPageCall)
    | "nextPage" => (c, st)
    | "anim" =>
        let (s', st) := step.animation.prepare step.animState st
        ({ c with steps := c.steps.set c.currentStep.toNat { step with animState := s' } }, st)
    | _ => (c, (st.emit .consoleErrorUnsupportedStep).emit .consoleLogObj)

/-- Follows the spec's words: "decrement the cursor by one, clamped to
zero". -/
def StepCtrl.decClamp (c : Ctrl) : Ctrl :=
  { c with currentStep := if c.currentStep - 1 < 0 then 0 else c.currentStep - 1 }

/-- Modelled from the spec's wording of `nextStep` (claim about
ordering): finish the current step's animation first, then advance the
cursor with clamping, then execute the step at the post-increment
index. -/
def StepCtrl.nextStepSpec (c : Ctrl) (st : St) : Ctrl × St :=
  StepCtrl.execAt (StepCtrl.advanceClamp c) (StepCtrl.finishStage c st)

/-- Modelled from the spec's wording of `previousStep`: execute the
reverse action of the step at the pre-decrement index, and only then
decrement the cursor with clamping. -/
def StepCtrl.previousStepSpec (c : Ctrl) (st : St) : Ctrl × St :=
  let (c1, st1) := StepCtrl.execRevAt c st
  (StepCtrl.decClamp c1, st1)

/-- One external navigation event. -/
inductive NavOp where
  | next
  | prev
deriving DecidableEq

/-- Run a sequence of `nextStep`/`previousStep` calls, in order. -/
def StepCtrl.runOps (c : Ctrl) (st : St) : List NavOp → Ctrl × St
  | [] => (c, st)
  | op :: rest =>
      match op with
      | .next =>
          let (c', st') := StepCtrl.nextStep c st
          StepCtrl.runOps c' st' rest
      | .prev =>
          let (c', st') := StepCtrl.previousStep c st
          StepCtrl.runOps c' st' rest

/-- Runs `n` consecutive `nextStep()` calls. -/
def StepCtrl.iterNext : Nat → Ctrl → St → Ctrl × St
  | 0, c, st => (c, st)
  | n + 1, c, st =>
      let (c', st') := StepCtrl.nextStep c st
      StepCtrl.iterNext n c' st'

/-- Runs `n` consecutive `previousStep()` calls. -/
def StepCtrl.iterPrev : Nat → Ctrl → St → Ctrl × St
  | 0, c, st => (c, st)
  | n + 1, c, st =>
      let (c', st') := StepCtrl.previousStep c st
      StepCtrl.iterPrev n c' st'

/-- A JavaScript value stored on an object, for the dynamic view of the
`Animation` constructor: strings, numbers, booleans, and function
values (identified by the name of the function they denote). -/
inductive JVal where
  | str (s : String)
  | num (n : Int)
  | boolV (b : Bool)
  | fn (name : String)
deriving DecidableEq

/-- A JavaScript object as the sequence of property assignments made to
it, in program order (later assignments to the same key win). -/
abbrev Obj := List (String × JVal)

/-- Embeds the assignment `o[k] = v`. -/
def objSet (o : Obj) (k : String) (v : JVal) : Obj :=
  o ++ [(k, v)]

/-- Property lookup: the value of the last assignment to `k`, if any. -/
def objGet (o : Obj) (k : String) : Option JVal :=
  o.foldl (fun acc kv => if kv.1 == k then some kv.2 else acc) none

/-- The `Animation` constructor as the sequence of property assignments
it performs: `this.type/target/duration/easing`, the `for (key in
options)` copy loop, `this.ready = false`, `this.played = false`, and
then the default `playCustomAnimation` / `prepareCustomAnimation` /
`finishCustomAnimation` / `moveOutside` function members. -/
def mkAnimation (type target duration easing : JVal)
    (options : List (String × JVal)) : Obj :=
  let o : Obj := []
  let o := objSet o "type" type
  let o := objSet o "target" target
  let o := objSet o "duration" duration
  let o := objSet o "easing" easing
  let o := options.foldl (fun acc kv => objSet acc kv.1 kv.2) o
  let o := objSet o "ready" (JVal.boolV false)
  let o := objSet o "played" (JVal.boolV false)
  let o := objSet o "playCustomAnimation" (JVal.fn "Animation.playCustomAnimation")
  let o := objSet o "prepareCustomAnimation" (JVal.fn "Animation.prepareCustomAnimation")
  let o := objSet o "finishCustomAnimation" (JVal.fn "Animation.finishCustomAnimation")
  objSet o "moveOutside" (JVal.fn "Animation.moveOutside")

@[simp]
theorem St.emit_dom (st : St) (e : Ev) : (st.emit e).dom = st.dom := rfl

@[simp]
theorem St.emit_trace (st : St) (e : Ev) : (st.emit e).trace = st.trace ++ [e] := rfl

@[simp]
theorem St.emit_getHtml (st : St) (e : Ev) (t : String) :
    (st.emit e).getHtml t = st.getHtml t := rfl

@[simp]
theorem St.setHtml_dom_elem_self (st : St) (t v : String) :
    ((st.setHtml t v).dom.elem t).html = v := by
  simp [St.setHtml]

@[simp]
theorem St.setHtml_getHtml_self (st : St) (t v : String) :
    (st.setHtml t v).getHtml t = v := by
  simp [St.setHtml, St.getHtml]

@[simp]
theorem St.setHtml_trace (st : St) (t v : String) :
    (st.setHtml t v).trace = st.trace ++ [Ev.htmlSet t v] := rfl

@[simp]
theorem Anim.cfg_mk (c : AnimCfg) (l : List Anim) : (Anim.mk c l).cfg = c := rfl

@[simp]
theorem Anim.animations_mk (c : AnimCfg) (l : List Anim) :
    (Anim.mk c l).animations = l := rfl

@[simp]
theorem AnimState.ready_mk (r p : Bool) (o : Option String) (cs : List AnimState) :
    (AnimState.mk r p o cs).ready = r := rfl

@[simp]
theorem AnimState.played_mk (r p : Bool) (o : Option String) (cs : List AnimState) :
    (AnimState.mk r p o cs).played = p := rfl

@[simp]
theorem AnimState.old_text_mk (r p : Bool) (o : Option String) (cs : List AnimState) :
    (AnimState.mk r p o cs).old_text = o := rfl

@[simp]
theorem AnimState.children_mk (r p : Bool) (o : Option String) (cs : List AnimState) :
    (AnimState.mk r p o cs).children = cs := rfl

/-- A state used by the concrete sample scenarios: every selector
resolves to an element whose inner html is "orig". -/
def exSt : St :=
  { dom := { elem := fun _ => { posTop := 0, posLeft := 0, width := 10, height := 10, html := "orig" },
             winWidth := 800, winHeight := 600 },
    trace := [] }

/-- A baseline animation configuration for the sample scenarios. -/
def baseCfg : AnimCfg :=
  { type := "fadeIn", target := "#a", duration := 500, easing := "swing",
    from_ := "left", late_prepare := false, no_reverse := false,
    text := "", toX := "0", toY := "0", fromX := "0", fromY := "0" }

/-- C5 sample: a `no_reverse` animation that is ready and played. -/
def exA5 : Anim := .mk { baseCfg with no_reverse := true } []

def exS5 : AnimState := .mk true true none []

/-- C5: for every animation with `no_reverse` set that is both ready and
played, `prepare()` is a complete no-op — it returns the state (flags,
DOM and trace) unchanged, so in particular it calls neither `finish()`
nor any kind-specific precondition, and a second immediate `prepare()`
leaves everything unchanged as well. -/
theorem anim_no_reverse_prepare_noop (a : Anim) (s : AnimState) (st : St)
    (h1 : a.cfg.no_reverse = true) (h2 : s.ready = true) (h3 : s.played = true) :
    Anim.prepare a s st = (s, st) ∧
      Anim.prepare a (Anim.prepare a s st).1 (Anim.prepare a s st).2 = (s, st) := by
  have h : Anim.prepare a s st = (s, st) := by
    rw [Anim.prepare.eq_def]
    simp [h1, h2, h3]
  exact ⟨h, by rw [h]; exact h⟩

theorem anim_no_reverse_prepare_noop_witness :
    exA5.cfg.no_reverse = true ∧ exS5.ready = true ∧ exS5.played = true ∧
      (Anim.prepare exA5 exS5 exSt = (exS5, exSt) ∧
        Anim.prepare exA5 (Anim.prepare exA5 exS5 exSt).1 (Anim.prepare exA5 exS5 exSt).2 = (exS5, exSt)) :=
  ⟨rfl, rfl, rfl, anim_no_reverse_prepare_noop exA5 exS5 exSt rfl rfl rfl⟩

/-- Calling `finish` on a non-"set" animation only records collaborator calls;
the DOM state is untouched. -/
theorem Anim.finish_dom_of_ne_set (c : AnimCfg) (anims : List Anim) (st : St)
    (h : c.type ≠ "set") :
    (Anim.finish (.mk c anims) st).dom = st.dom := by
  rw [Anim.finish.eq_def]
  split
  split_ifs <;> simp_all

/-- The kinds `Animation.prototype.play` supports (the cases of its
switch). -/
def supportedAnimKinds : List String :=
  ["fadeIn", "fadeOut", "moveIn", "svg.fadeIn", "svg.move", "set",
   "changeText", "custom"]

/-- Calling `prepare` on an animation of an unrecognized kind: the guard
returns, or `finish()` followed by the empty default branch of the
switch and `this.ready = true`. -/
theorem Anim.prepare_unsupported_eq (c : AnimCfg) (anims : List Anim)
    (r p : Bool) (o : Option String) (cs : List AnimState) (st : St)
    (hk : c.type ∉ supportedAnimKinds) :
    Anim.prepare (.mk c anims) (.mk r p o cs) st =
      if c.late_prepare && !r then (.mk r p o cs, st)
      else if c.no_reverse && r && p then (.mk r p o cs, st)
      else (.mk true p o cs, Anim.finish (.mk c anims) st) := by
  simp [supportedAnimKinds] at hk
  obtain ⟨h1, h2, h3, h4, h5, h6, h7, h8⟩ := hk
  rw [Anim.prepare.eq_def]
  simp only [Anim.cfg_mk, AnimState.ready_mk, AnimState.played_mk]
  split_ifs with g1 g2
  · rfl
  · rfl
  · simp [AnimState.old_text, AnimState.children]

/-- Calling `play` on an animation of an unrecognized kind: `beforePlay`, the
optional `late_prepare` arming pass, the error report of the default
branch, `played = true`, `afterPlay`. -/
theorem Anim.play_unsupported_eq (c : AnimCfg) (anims : List Anim)
    (r p : Bool) (o : Option String) (cs : List AnimState) (st : St)
    (hk : c.type ∉ supportedAnimKinds) :
    Anim.play (.mk c anims) (.mk r p o cs) st =
      if c.late_prepare then
        (.mk true true o cs,
          (((Anim.finish (.mk c anims) (st.emit .beforePlayHook)).emit
            .consoleErrorUnsupportedAnimation).emit .consoleLogObj).emit .afterPlayHook)
      else
        (.mk r true o cs,
          (((st.emit .beforePlayHook).emit
            .consoleErrorUnsupportedAnimation).emit .consoleLogObj).emit .afterPlayHook) := by
  have hks := hk
  simp only [supportedAnimKinds, List.mem_cons, List.not_mem_nil, or_false,
    not_or] at hks
  obtain ⟨h1, h2, h3, h4, h5, h6, h7, h8⟩ := hks
  rw [Anim.play.eq_def]
  simp only [AnimState.old_text_mk, AnimState.children_mk]
  by_cases hlp : c.late_prepare
  · rw [Anim.prepare_unsupported_eq c anims true false o cs _ hk]
    simp only [hlp, Bool.not_true, Bool.and_false, Bool.false_and,
      Bool.and_true, if_true]
    split <;> simp_all [AnimState.ready_mk, AnimState.played_mk,
      AnimState.old_text_mk, AnimState.children_mk]
  · simp only [hlp, Bool.false_eq_true, if_false]
    simp_all [AnimState.ready_mk, AnimState.played_mk,
      AnimState.old_text_mk, AnimState.children_mk]

/-- C9: `play()` on an animation whose kind is not one of the supported
kinds reports the error (`console.error` then the object log), changes
no DOM state, and still sets `played = true` and runs the `afterPlay`
hook as the last action, so execution continues. -/
theorem play_unsupported_kind_logs_and_continues (a : Anim) (s : AnimState)
    (st : St) (hk : a.cfg.type ∉ supportedAnimKinds) :
    (Anim.play a s st).2.dom = st.dom ∧
      (Anim.play a s st).1.played = true ∧
      ∃ pre, (Anim.play a s st).2.trace =
        pre ++ [Ev.consoleErrorUnsupportedAnimation, Ev.consoleLogObj,
          Ev.afterPlayHook] := by
  obtain ⟨c, anims⟩ := a
  obtain ⟨r, p, o, cs⟩ := s
  rw [Anim.play_unsupported_eq c anims r p o cs st hk]
  have hset : c.type ≠ "set" := by
    intro h
    exact hk (by simp [supportedAnimKinds, h])
  by_cases hlp : c.late_prepare
  · refine ⟨?_, ?_, ?_⟩
    · simp [hlp, Anim.finish_dom_of_ne_set c anims _ hset]
    · simp [hlp, AnimState.played]
    · refine ⟨(Anim.finish (.mk c anims) (st.emit .beforePlayHook)).trace, ?_⟩
      simp [hlp]
  · refine ⟨?_, ?_, ?_⟩
    · simp [hlp]
    · simp [hlp, AnimState.played]
    · refine ⟨st.trace ++ [Ev.beforePlayHook], ?_⟩
      simp [hlp]

/-- C9 sample: an animation of the unrecognized kind "bogus". -/
def exA9 : Anim := .mk { baseCfg with type := "bogus" } []

def exS9 : AnimState := .mk false false none []

theorem play_unsupported_kind_logs_and_continues_witness :
    exA9.cfg.type ∉ supportedAnimKinds ∧
      ((Anim.play exA9 exS9 exSt).2.dom = exSt.dom ∧
        (Anim.play exA9 exS9 exSt).1.played = true ∧
        ∃ pre, (Anim.play exA9 exS9 exSt).2.trace =
          pre ++ [Ev.consoleErrorUnsupportedAnimation, Ev.consoleLogObj,
            Ev.afterPlayHook]) :=
  ⟨by decide, play_unsupported_kind_logs_and_continues exA9 exS9 exSt (by decide)⟩

/-- Calling `play` on a change-text animation without `late_prepare`:
`beforePlay`, capture of the target's current content into
`__old_text`, the content replacement with `text`, the re-highlighting
hotfix, `played = true`, `afterPlay`. -/
theorem Anim.play_changeText_eq (c : AnimCfg) (anims : List Anim)
    (r p : Bool) (o : Option String) (cs : List AnimState) (st : St)
    (ht : c.type = "changeText") (hlp : c.late_prepare = false) :
    Anim.play (.mk c anims) (.mk r p o cs) st =
      (.mk r true (some (st.getHtml c.target)) cs,
        ((((st.emit .beforePlayHook).setHtml c.target c.text).emit
          .removePrettyprintedCls).emit .prettyPrintCall).emit
          .afterPlayHook) := by
  rw [Anim.play.eq_def]
  simp [hlp, ht, AnimState.ready_mk, AnimState.played_mk,
    AnimState.old_text_mk, AnimState.children_mk]

/-- C8 (amended): on a change-text animation (without the `late_prepare`
arming pass), `play()` always captures the target's current content
into `__old_text` — overwriting any previous capture — and then
replaces the content with `text` and sets `played`. -/
theorem play_changeText_always_captures (a : Anim) (s : AnimState) (st : St)
    (ht : a.cfg.type = "changeText") (hlp : a.cfg.late_prepare = false) :
    (Anim.play a s st).1.old_text = some (st.getHtml a.cfg.target) ∧
      (Anim.play a s st).2.getHtml a.cfg.target = a.cfg.text ∧
      (Anim.play a s st).1.played = true := by
  obtain ⟨c, anims⟩ := a
  obtain ⟨r, p, o, cs⟩ := s
  simp only [Anim.cfg_mk] at ht hlp ⊢
  rw [Anim.play_changeText_eq c anims r p o cs st ht hlp]
  simp [AnimState.old_text_mk, AnimState.played_mk, ht]

/-- C8 sample: a change-text animation whose `__old_text` already holds
a captured value while the target currently shows different content. -/
def exA8 : Anim := .mk { baseCfg with type := "changeText", text := "new" } []

def exS8 : AnimState := .mk false false (some "captured") []

/-- C8 counterexample: the claim says a `play()` that finds an existing
capture leaves `__old_text` alone; the code unconditionally overwrites
it (`this.__old_text = $(this.target).html()`) with the target's
current content. -/
theorem play_changeText_overwrites_capture :
    exS8.old_text = some "captured" ∧
      (Anim.play exA8 exS8 exSt).1.old_text = some "orig" ∧
      (Anim.play exA8 exS8 exSt).1.old_text ≠ exS8.old_text := by
  have h := Anim.play_changeText_eq { baseCfg with type := "changeText", text := "new" } []
    false false (some "captured") [] exSt (by simp [baseCfg]) (by simp [baseCfg])
  refine ⟨rfl, ?_, ?_⟩
  · rw [show Anim.play exA8 exS8 exSt =
      Anim.play (.mk { baseCfg with type := "changeText", text := "new" } [])
        (.mk false false (some "captured") []) exSt from rfl, h]
    simp [exSt, St.getHtml]
  · rw [show Anim.play exA8 exS8 exSt =
      Anim.play (.mk { baseCfg with type := "changeText", text := "new" } [])
        (.mk false false (some "captured") []) exSt from rfl, h]
    simp [exSt, St.getHtml, exS8]

theorem play_changeText_always_captures_witness :
    exA8.cfg.type = "changeText" ∧ exA8.cfg.late_prepare = false ∧
      ((Anim.play exA8 exS8 exSt).1.old_text = some (exSt.getHtml exA8.cfg.target) ∧
        (Anim.play exA8 exS8 exSt).2.getHtml exA8.cfg.target = exA8.cfg.text ∧
        (Anim.play exA8 exS8 exSt).1.played = true) :=
  ⟨rfl, rfl, play_changeText_always_captures exA8 exS8 exSt rfl rfl⟩

@[simp]
theorem strStartsWith_fadeIn_svg : strStartsWith "fadeIn" "svg" = false := by
  decide

@[simp]
theorem strStartsWith_changeText_svg :
    strStartsWith "changeText" "svg" = false := by
  decide

/-- When neither guard fires, `prepare` runs its core (finish, kind
switch, `ready = true`). -/
theorem Anim.prepare_eq_core (a : Anim) (s : AnimState) (st : St)
    (h1 : (a.cfg.late_prepare && !s.ready) = false)
    (h2 : (a.cfg.no_reverse && s.ready && s.played) = false) :
    Anim.prepare a s st = Anim.prepareCore a s st := by
  obtain ⟨c, anims⟩ := a
  obtain ⟨r, p, o, cs⟩ := s
  rw [Anim.prepare.eq_def, Anim.prepareCore.eq_def]
  simp only [Anim.cfg_mk, AnimState.ready_mk, AnimState.played_mk] at h1 h2
  simp [h1, h2]

/-- The core of `prepare` always ends with `this.ready = true`. -/
theorem Anim.prepareCore_ready (a : Anim) (s : AnimState) (st : St) :
    (Anim.prepareCore a s st).1.ready = true := by
  obtain ⟨c, anims⟩ := a
  obtain ⟨r, p, o, cs⟩ := s
  rw [Anim.prepareCore.eq_def]
  split
  all_goals try split
  all_goals simp [AnimState.ready_mk]

/-- The `late_prepare` arming pass of `play` leaves the animation
ready: the pass sets `played = false` first, so the `no_reverse` guard
never blocks it, and the core sets `ready = true`. -/
theorem Anim.play_ready_of_late (a : Anim) (s : AnimState) (st : St)
    (hlp : a.cfg.late_prepare = true) :
    (Anim.play a s st).1.ready = true := by
  obtain ⟨c, anims⟩ := a
  obtain ⟨r, p, o, cs⟩ := s
  simp only [Anim.cfg_mk] at hlp
  rw [Anim.play.eq_def]
  simp only [AnimState.old_text_mk, AnimState.children_mk, hlp, if_true]
  rw [Anim.prepare_eq_core _ _ _ (by simp [hlp]) (by simp)]
  rcases hcore : Anim.prepareCore (.mk c anims) (.mk true false o cs)
      (st.emit .beforePlayHook) with ⟨sc, stc⟩
  have hr : sc.ready = true := by
    have := Anim.prepareCore_ready (.mk c anims) (.mk true false o cs)
      (st.emit .beforePlayHook)
    rw [hcore] at this
    exact this
  split <;> simp_all [AnimState.ready_mk]

/-- C6 sample (counterexample): a `late_prepare` animation that also
sets `no_reverse`. -/
def exA6 : Anim := .mk { baseCfg with late_prepare := true, no_reverse := true } []

def exS6 : AnimState := .mk false false none []

/-- The state and browser state after `play()` on the C6 sample. -/
def exP6 : AnimState × St := Anim.play exA6 exS6 exSt

/-- C6 counterexample: for an animation with both `late_prepare` and
`no_reverse`, `prepare()` before `play()` is a no-op as claimed and
`play()` arms the animation, but the later `prepare()` does not execute
fully: it is short-circuited by the `no_reverse` guard (the state and
trace are returned unchanged), while a full execution (the core) would
have recorded `finish()` and precondition calls. -/
theorem anim_late_prepare_noreverse_blocks :
    exA6.cfg.late_prepare = true ∧
      Anim.prepare exA6 exS6 exSt = (exS6, exSt) ∧
      exP6.1.ready = true ∧
      Anim.prepare exA6 exP6.1 exP6.2 = (exP6.1, exP6.2) ∧
      (Anim.prepareCore exA6 exP6.1 exP6.2).2.trace ≠ exP6.2.trace := by
  have hplay : exP6.1 = AnimState.mk true true none [] := by
    simp only [exP6, exA6, exS6, baseCfg]
    rw [Anim.play.eq_def]
    simp only [AnimState.old_text_mk, AnimState.children_mk]
    rw [Anim.prepare_eq_core _ _ _ (by simp) (by simp)]
    rw [Anim.prepareCore.eq_def]
    simp [Anim.finish.eq_def]
  refine ⟨rfl, ?_, ?_, ?_, ?_⟩
  · rw [Anim.prepare.eq_def]
    simp [exA6, exS6, baseCfg]
  · rw [hplay]
    rfl
  · rw [hplay, Anim.prepare.eq_def]
    simp [exA6, baseCfg]
  · rw [hplay, Anim.prepareCore.eq_def]
    simp [exA6, baseCfg, Anim.finish.eq_def]

/-- C6 (amended): for every animation with `late_prepare` set and
`no_reverse` not set, `prepare()` while `ready` is false is a no-op;
`play()` performs an immediate prepare pass that arms the animation
(`ready` becomes true); and any later `prepare()` on a ready state
executes fully (neither guard short-circuits, so the call runs the
core: `finish()`, the kind preconditions, `ready = true`).  With
`no_reverse` also set, the later `prepare()` is instead blocked by the
no-reverse guard. -/
theorem anim_late_prepare_amended (a : Anim) (s : AnimState) (st : St)
    (hlp : a.cfg.late_prepare = true) (hnr : a.cfg.no_reverse = false) :
    (s.ready = false → Anim.prepare a s st = (s, st)) ∧
      (Anim.play a s st).1.ready = true ∧
      (∀ s2 st2, s2.ready = true →
        Anim.prepare a s2 st2 = Anim.prepareCore a s2 st2) := by
  refine ⟨?_, Anim.play_ready_of_late a s st hlp, ?_⟩
  · intro hr
    rw [Anim.prepare.eq_def]
    simp [hlp, hr]
  · intro s2 st2 hr2
    exact Anim.prepare_eq_core a s2 st2 (by simp [hr2]) (by simp [hnr])

/-- C6 witness sample: a `late_prepare` animation without
`no_reverse`. -/
def exA6b : Anim := .mk { baseCfg with late_prepare := true } []

def exS6b : AnimState := .mk false false none []

theorem anim_late_prepare_amended_witness :
    exA6b.cfg.late_prepare = true ∧ exA6b.cfg.no_reverse = false ∧
      ((exS6b.ready = false → Anim.prepare exA6b exS6b exSt = (exS6b, exSt)) ∧
        (Anim.play exA6b exS6b exSt).1.ready = true ∧
        (∀ s2 st2, s2.ready = true →
          Anim.prepare exA6b s2 st2 = Anim.prepareCore exA6b s2 st2)) :=
  ⟨rfl, rfl, anim_late_prepare_amended exA6b exS6b exSt rfl rfl⟩

/-- Calling `finish` on a non-"set" animation leaves every target's html as it
was. -/
theorem Anim.finish_getHtml_of_ne_set (c : AnimCfg) (anims : List Anim)
    (st : St) (t : String) (h : c.type ≠ "set") :
    (Anim.finish (.mk c anims) st).getHtml t = st.getHtml t := by
  simp [St.getHtml, Anim.finish_dom_of_ne_set c anims st h]

/-- The guard return of `prepare` for an unarmed `late_prepare`
animation. -/
theorem Anim.prepare_guard1 (a : Anim) (s : AnimState) (st : St)
    (hlp : a.cfg.late_prepare = true) (hr : s.ready = false) :
    Anim.prepare a s st = (s, st) := by
  rw [Anim.prepare.eq_def]
  simp [hlp, hr]

/-- The core of `prepare` on a change-text animation with no capture
yet: `finish()`, then capture the target's current content. -/
theorem Anim.prepareCore_changeText_none (c : AnimCfg) (anims : List Anim)
    (r p : Bool) (cs : List AnimState) (st : St)
    (ht : c.type = "changeText") :
    Anim.prepareCore (.mk c anims) (.mk r p none cs) st =
      (.mk true p (some (st.getHtml c.target)) cs,
        Anim.finish (.mk c anims) st) := by
  rw [Anim.prepareCore.eq_def]
  have : (Anim.finish (.mk c anims) st).getHtml c.target = st.getHtml c.target :=
    Anim.finish_getHtml_of_ne_set c anims st c.target (by simp [ht])
  simp [ht, this]

/-- The core of `prepare` on a change-text animation with a capture:
`finish()`, then restore the captured content. -/
theorem Anim.prepareCore_changeText_some (c : AnimCfg) (anims : List Anim)
    (r p : Bool) (t : String) (cs : List AnimState) (st : St)
    (ht : c.type = "changeText") :
    Anim.prepareCore (.mk c anims) (.mk r p (some t) cs) st =
      (.mk true p (some t) cs,
        (Anim.finish (.mk c anims) st).setHtml c.target t) := by
  rw [Anim.prepareCore.eq_def]
  simp [ht]

/-- Calling `play` on a `late_prepare` change-text animation without
`no_reverse`: the arming pass runs the prepare core (capturing or
restoring), then the text replacement runs. -/
theorem Anim.play_changeText_late_eq (c : AnimCfg) (anims : List Anim)
    (r p : Bool) (o : Option String) (cs : List AnimState) (st : St)
    (ht : c.type = "changeText") (hlp : c.late_prepare = true)
    (hnr : c.no_reverse = false) :
    Anim.play (.mk c anims) (.mk r p o cs) st =
      (let st1 := st.emit .beforePlayHook
       let pre :=
         match o with
         | none =>
             (some ((Anim.finish (.mk c anims) st1).getHtml c.target),
               Anim.finish (.mk c anims) st1)
         | some t =>
             (some t, (Anim.finish (.mk c anims) st1).setHtml c.target t)
       let old := pre.2.getHtml c.target
       (.mk true true (some old) cs,
         (((pre.2.setHtml c.target c.text).emit
           .removePrettyprintedCls).emit .prettyPrintCall).emit
           .afterPlayHook)) := by
  rw [Anim.play.eq_def]
  simp only [AnimState.old_text_mk, AnimState.children_mk, hlp, if_true]
  rw [Anim.prepare_eq_core _ _ _ (by simp [hlp]) (by simp [hnr])]
  cases o with
  | none =>
      rw [Anim.prepareCore_changeText_none c anims true false cs _ ht]
      simp [ht]
  | some t =>
      rw [Anim.prepareCore_changeText_some c anims true false t cs _ ht]
      simp [ht]

/-- C7 (amended): for every change-text animation without `no_reverse`
and with no prior capture, the sequence `prepare(); play(); prepare()`
restores the target's content to its original html (nothing else
mutating the target in between).  With `no_reverse` set the final
`prepare()` is blocked by the no-reverse guard and the text is not
restored. -/
theorem changeText_roundtrip_restores (a : Anim) (s : AnimState) (st : St)
    (ht : a.cfg.type = "changeText") (hnr : a.cfg.no_reverse = false)
    (ho : s.old_text = none) :
    (let p1 := Anim.prepare a s st
     let p2 := Anim.play a p1.1 p1.2
     (Anim.prepare a p2.1 p2.2).2.getHtml a.cfg.target) =
      st.getHtml a.cfg.target := by
  obtain ⟨c, anims⟩ := a
  obtain ⟨r, p, o, cs⟩ := s
  simp only [Anim.cfg_mk] at ht hnr ⊢
  simp only [AnimState.old_text_mk] at ho
  subst ho
  have hset : c.type ≠ "set" := by simp [ht]
  have hfin : ∀ (st' : St) (t : String),
      (Anim.finish (.mk c anims) st').getHtml t = st'.getHtml t :=
    fun st' t => Anim.finish_getHtml_of_ne_set c anims st' t hset
  cases hlp : c.late_prepare with
  | true =>
    cases r with
    | true =>
      rw [Anim.prepare_eq_core (.mk c anims) (.mk true p none cs) st
        (by simp) (by simp [hnr])]
      rw [Anim.prepareCore_changeText_none c anims true p cs st ht]
      simp only []
      rw [Anim.play_changeText_late_eq c anims true p
        (some (st.getHtml c.target)) cs _ ht hlp hnr]
      simp only [St.setHtml_getHtml_self]
      rw [Anim.prepare_eq_core _ _ _ (by simp) (by simp [hnr])]
      rw [Anim.prepareCore_changeText_some c anims true true _ cs _ ht]
      simp
    | false =>
      rw [Anim.prepare_guard1 (.mk c anims) (.mk false p none cs) st
        (by simpa using hlp) (by simp)]
      simp only []
      rw [Anim.play_changeText_late_eq c anims false p none cs st ht hlp hnr]
      simp only [hfin, St.emit_getHtml]
      rw [Anim.prepare_eq_core _ _ _ (by simp) (by simp [hnr])]
      rw [Anim.prepareCore_changeText_some c anims true true _ cs _ ht]
      simp
  | false =>
    rw [Anim.prepare_eq_core (.mk c anims) (.mk r p none cs) st
      (by simp [hlp]) (by simp [hnr])]
    rw [Anim.prepareCore_changeText_none c anims r p cs st ht]
    simp only []
    rw [Anim.play_changeText_eq c anims true p
      (some (st.getHtml c.target)) cs _ ht hlp]
    simp only [hfin, St.emit_getHtml]
    rw [Anim.prepare_eq_core _ _ _ (by simp) (by simp [hnr])]
    rw [Anim.prepareCore_changeText_some c anims true true _ cs _ ht]
    simp

/-- C7 counterexample sample: a change-text animation with
`no_reverse`. -/
def cfg7 : AnimCfg :=
  { baseCfg with
    type := "changeText"
    no_reverse := true
    text := "Y"
    target := "#t" }

def exA7 : Anim := .mk cfg7 []

def exS7 : AnimState := .mk false false none []

/-- The browser state after `prepare(); play(); prepare()` on the C7
counterexample sample. -/
def exR7 : St :=
  (Anim.prepare exA7
    (Anim.play exA7 (Anim.prepare exA7 exS7 exSt).1
      (Anim.prepare exA7 exS7 exSt).2).1
    (Anim.play exA7 (Anim.prepare exA7 exS7 exSt).1
      (Anim.prepare exA7 exS7 exSt).2).2).2

/-- C7 counterexample: for a change-text animation with `no_reverse`,
`prepare(); play(); prepare()` does not restore the original text — the
final `prepare()` is short-circuited by the no-reverse guard and the
target keeps the replacement text. -/
theorem changeText_roundtrip_noreverse_fails :
    exSt.getHtml "#t" = "orig" ∧ exR7.getHtml "#t" = "Y" ∧
      exR7.getHtml "#t" ≠ exSt.getHtml "#t" := by
  have h : exR7.getHtml "#t" = "Y" := by
    simp only [exR7, exA7, exS7]
    rw [Anim.prepare_eq_core (.mk cfg7 []) (.mk false false none []) exSt
      (by simp [cfg7, baseCfg]) (by simp [cfg7, baseCfg])]
    rw [Anim.prepareCore_changeText_none cfg7 [] false false [] exSt
      (by simp [cfg7, baseCfg])]
    simp only []
    rw [Anim.play_changeText_eq cfg7 [] true false
      (some (exSt.getHtml cfg7.target)) [] _ (by simp [cfg7, baseCfg])
      (by simp [cfg7, baseCfg])]
    simp only []
    rw [Anim.prepare.eq_def]
    simp [cfg7, baseCfg, exSt, St.getHtml]
  exact ⟨rfl, h, by rw [h]; decide⟩

/-- C7 witness sample: the same change-text animation without
`no_reverse`. -/
def exA7b : Anim :=
  .mk { baseCfg with type := "changeText", text := "Z", target := "#t" } []

theorem changeText_roundtrip_restores_witness :
    exA7b.cfg.type = "changeText" ∧ exA7b.cfg.no_reverse = false ∧
      exS7.old_text = none ∧
      (let p1 := Anim.prepare exA7b exS7 exSt
       let p2 := Anim.play exA7b p1.1 p1.2
       (Anim.prepare exA7b p2.1 p2.2).2.getHtml exA7b.cfg.target) =
        exSt.getHtml exA7b.cfg.target :=
  ⟨rfl, rfl, rfl, changeText_roundtrip_restores exA7b exS7 exSt rfl rfl rfl⟩

/-- Folding the lookup over a list from any accumulator: the last
binding of the key wins, else the accumulator survives. -/
theorem objGet_foldl_init (l : List (String × JVal)) (k : String)
    (a : Option JVal) :
    l.foldl (fun acc kv => if kv.1 == k then some kv.2 else acc) a =
      match objGet l k with
      | some v => some v
      | none => a := by
  induction l generalizing a with
  | nil => simp [objGet]
  | cons kv rest ih =>
      simp only [objGet, List.foldl_cons]
      by_cases h : (kv.1 == k) = true
      · rw [if_pos h, if_pos h, ih]
        rcases objGet rest k with _ | v <;> rfl
      · rw [if_neg h, if_neg h, ih]
        rfl

/-- Appending one element at a time builds the concatenation. -/
theorem foldl_append_singleton (o : List (String × JVal))
    (l : List (String × JVal)) :
    l.foldl (fun acc kv => acc ++ [kv]) o = o ++ l := by
  induction l generalizing o with
  | nil => simp
  | cons kv rest ih => simp [List.foldl_cons, ih]

/-- Property assignment builds up the list: the `for (key in options)`
loop appends the option pairs in order. -/
theorem foldl_objSet_eq_append (o : Obj) (l : List (String × JVal)) :
    l.foldl (fun acc kv => objSet acc kv.1 kv.2) o = o ++ l := by
  have h : (fun (acc : Obj) (kv : String × JVal) => objSet acc kv.1 kv.2)
      = fun acc kv => acc ++ [kv] := by
    funext acc kv
    simp [objSet]
  rw [h]
  exact foldl_append_singleton o l

/-- Lookup over concatenated assignment lists: the later segment wins
when it binds the key. -/
theorem objGet_append (l1 l2 : Obj) (k : String) :
    objGet (l1 ++ l2) k =
      match objGet l2 k with
      | some v => some v
      | none => objGet l1 k := by
  have h : objGet (l1 ++ l2) k =
      l2.foldl (fun acc kv => if kv.1 == k then some kv.2 else acc)
        (objGet l1 k) := by
    simp [objGet, List.foldl_append]
  rw [h, objGet_foldl_init]

/-- The constructor's assignment sequence, as one concatenation. -/
theorem mkAnimation_eq (ty tg du ea : JVal) (opts : List (String × JVal)) :
    mkAnimation ty tg du ea opts =
      ([("type", ty), ("target", tg), ("duration", du), ("easing", ea)]
        ++ opts) ++
      [("ready", JVal.boolV false), ("played", JVal.boolV false),
       ("playCustomAnimation", JVal.fn "Animation.playCustomAnimation"),
       ("prepareCustomAnimation", JVal.fn "Animation.prepareCustomAnimation"),
       ("finishCustomAnimation", JVal.fn "Animation.finishCustomAnimation"),
       ("moveOutside", JVal.fn "Animation.moveOutside")] := by
  simp only [mkAnimation]
  rw [foldl_objSet_eq_append]
  simp [objSet]

/-- C10 (amended): after the constructor runs, `ready` and `played` are
`false` regardless of the options bag, and every other options
key-value pair is retained on the instance (shadowing `type`, `target`,
`duration` or `easing` when the keys collide) — except keys named after
the four function members (`playCustomAnimation`,
`prepareCustomAnimation`, `finishCustomAnimation`, `moveOutside`),
which the constructor overwrites with the default hook implementations
after the options loop. -/
theorem ctor_flags_reset_options_copied (ty tg du ea : JVal)
    (opts : List (String × JVal)) (k : String) (v : JVal)
    (hk1 : k ≠ "ready") (hk2 : k ≠ "played")
    (hk3 : k ≠ "playCustomAnimation") (hk4 : k ≠ "prepareCustomAnimation")
    (hk5 : k ≠ "finishCustomAnimation") (hk6 : k ≠ "moveOutside") :
    objGet (mkAnimation ty tg du ea opts) "ready" = some (JVal.boolV false) ∧
      objGet (mkAnimation ty tg du ea opts) "played" = some (JVal.boolV false) ∧
      (objGet opts k = some v →
        objGet (mkAnimation ty tg du ea opts) k = some v) := by
  rw [mkAnimation_eq]
  refine ⟨?_, ?_, ?_⟩
  · rw [objGet_append]
    simp [objGet]
  · rw [objGet_append]
    simp [objGet]
  · intro hv
    rw [objGet_append]
    have htail : objGet
        [("ready", JVal.boolV false), ("played", JVal.boolV false),
         ("playCustomAnimation", JVal.fn "Animation.playCustomAnimation"),
         ("prepareCustomAnimation", JVal.fn "Animation.prepareCustomAnimation"),
         ("finishCustomAnimation", JVal.fn "Animation.finishCustomAnimation"),
         ("moveOutside", JVal.fn "Animation.moveOutside")] k = none := by
      simp [objGet, Ne.symm hk1, Ne.symm hk2, Ne.symm hk3, Ne.symm hk4,
        Ne.symm hk5, Ne.symm hk6]
    rw [htail]
    rw [objGet_append, hv]

/-- C10 counterexample sample: an options bag with a key named after a
function member. -/
def exOpts10 : List (String × JVal) := [("playCustomAnimation", JVal.str "boom")]

/-- C10 counterexample: an options pair whose key is
`playCustomAnimation` is not retained — the constructor assigns the
default hook function after the options loop, so the instance does not
hold the option's value. -/
theorem ctor_options_hook_overwritten :
    objGet (mkAnimation (JVal.str "fadeIn") (JVal.str "#a") (JVal.num 500)
        (JVal.str "swing") exOpts10) "playCustomAnimation" =
      some (JVal.fn "Animation.playCustomAnimation") ∧
      objGet exOpts10 "playCustomAnimation" = some (JVal.str "boom") ∧
      some (JVal.fn "Animation.playCustomAnimation") ≠
        some (JVal.str "boom") := by
  refine ⟨?_, by decide, by decide⟩
  decide

/-- C10 witness sample: an ordinary options bag with a `text` field and
a shadowing `type` field. -/
def exOpts10b : List (String × JVal) :=
  [("text", JVal.str "hi"), ("type", JVal.str "shadowed")]

theorem ctor_flags_reset_options_copied_witness :
    (objGet (mkAnimation (JVal.str "fadeIn") (JVal.str "#a") (JVal.num 500)
        (JVal.str "swing") exOpts10b) "ready" = some (JVal.boolV false) ∧
      objGet (mkAnimation (JVal.str "fadeIn") (JVal.str "#a") (JVal.num 500)
        (JVal.str "swing") exOpts10b) "played" = some (JVal.boolV false) ∧
      (objGet exOpts10b "type" = some (JVal.str "shadowed") →
        objGet (mkAnimation (JVal.str "fadeIn") (JVal.str "#a") (JVal.num 500)
          (JVal.str "swing") exOpts10b) "type" = some (JVal.str "shadowed"))) :=
  ctor_flags_reset_options_copied (JVal.str "fadeIn") (JVal.str "#a")
    (JVal.num 500) (JVal.str "swing") exOpts10b "type" (JVal.str "shadowed")
    (by decide) (by decide) (by decide) (by decide) (by decide) (by decide)

/-- An in-range index resolves to the list entry. -/
theorem getStep_eq (l : List Step) (i : Int) (h0 : 0 ≤ i)
    (h1 : i.toNat < l.length) :
    getStep l i = some l[i.toNat] := by
  simp [getStep, show ¬i < 0 by omega, List.getElem?_eq_getElem h1]

/-- Calling `nextStep` never changes the number of steps. -/
theorem StepCtrl.nextStep_length (c : Ctrl) (st : St) :
    (StepCtrl.nextStep c st).1.steps.length = c.steps.length := by
  unfold StepCtrl.nextStep
  repeat' (first | rfl | contradiction | split | simp only [List.length_set])

/-- Calling `previousStep` never changes the number of steps. -/
theorem StepCtrl.previousStep_length (c : Ctrl) (st : St) :
    (StepCtrl.previousStep c st).1.steps.length = c.steps.length := by
  unfold StepCtrl.previousStep
  repeat' (first | rfl | contradiction | split | simp only [List.length_set])

/-- When the current step exists, `nextStep` moves the cursor to the
clamped increment, whatever the executed step does. -/
theorem StepCtrl.nextStep_cursor (c : Ctrl) (st : St) (s : Step)
    (h : getStep c.steps c.currentStep = some s) :
    (StepCtrl.nextStep c st).1.currentStep =
      if c.currentStep + 1 ≥ (c.steps.length : Int) then
        (c.steps.length : Int) - 1
      else c.currentStep + 1 := by
  unfold StepCtrl.nextStep
  rw [h]
  repeat' (first | rfl | contradiction | split | simp only [])

/-- When the current step exists, `previousStep` moves the cursor to
the clamped decrement, whatever the executed step does. -/
theorem StepCtrl.previousStep_cursor (c : Ctrl) (st : St) (s : Step)
    (h : getStep c.steps c.currentStep = some s) :
    (StepCtrl.previousStep c st).1.currentStep =
      if c.currentStep - 1 < 0 then 0 else c.currentStep - 1 := by
  unfold StepCtrl.previousStep
  rw [h]
  repeat' (first | rfl | contradiction | split)

/-- One `nextStep` keeps the cursor in bounds and the step count
fixed. -/
theorem StepCtrl.nextStep_bounds (c : Ctrl) (st : St)
    (hne : c.steps ≠ []) (h0 : 0 ≤ c.currentStep)
    (h1 : c.currentStep ≤ (c.steps.length : Int) - 1) :
    0 ≤ (StepCtrl.nextStep c st).1.currentStep ∧
      (StepCtrl.nextStep c st).1.currentStep ≤
        (c.steps.length : Int) - 1 := by
  have hlen : 0 < c.steps.length := List.length_pos.mpr hne
  have ht : c.currentStep.toNat < c.steps.length := by omega
  have hs := getStep_eq c.steps c.currentStep h0 ht
  rw [StepCtrl.nextStep_cursor c st _ hs]
  split <;> omega

/-- One `previousStep` keeps the cursor in bounds and the step count
fixed. -/
theorem StepCtrl.previousStep_bounds (c : Ctrl) (st : St)
    (hne : c.steps ≠ []) (h0 : 0 ≤ c.currentStep)
    (h1 : c.currentStep ≤ (c.steps.length : Int) - 1) :
    0 ≤ (StepCtrl.previousStep c st).1.currentStep ∧
      (StepCtrl.previousStep c st).1.currentStep ≤
        (c.steps.length : Int) - 1 := by
  have hlen : 0 < c.steps.length := List.length_pos.mpr hne
  have ht : c.currentStep.toNat < c.steps.length := by omega
  have hs := getStep_eq c.steps c.currentStep h0 ht
  rw [StepCtrl.previousStep_cursor c st _ hs]
  split <;> omega

/-- C1: for every controller with a non-empty step list whose cursor
starts within `[0, steps.length - 1]`, the cursor stays within
`[0, steps.length - 1]` after any number of `nextStep`/`previousStep`
calls in any order (the step count never changes). -/
theorem stepctrl_cursor_stays_in_bounds (c : Ctrl) (st : St)
    (ops : List NavOp) (hne : c.steps ≠ []) (h0 : 0 ≤ c.currentStep)
    (h1 : c.currentStep ≤ (c.steps.length : Int) - 1) :
    0 ≤ (StepCtrl.runOps c st ops).1.currentStep ∧
      (StepCtrl.runOps c st ops).1.currentStep ≤
        ((StepCtrl.runOps c st ops).1.steps.length : Int) - 1 ∧
      (StepCtrl.runOps c st ops).1.steps.length = c.steps.length := by
  induction ops generalizing c st with
  | nil => exact ⟨h0, by simpa [StepCtrl.runOps] using h1, rfl⟩
  | cons op rest ih =>
      cases op with
      | next =>
          have hb := StepCtrl.nextStep_bounds c st hne h0 h1
          have hl := StepCtrl.nextStep_length c st
          have hne' : (StepCtrl.nextStep c st).1.steps ≠ [] := by
            intro hcon
            rw [hcon] at hl
            exact hne (List.eq_nil_of_length_eq_zero hl.symm)
          have := ih (StepCtrl.nextStep c st).1 (StepCtrl.nextStep c st).2
            hne' hb.1 (by rw [hl]; exact hb.2)
          simpa [StepCtrl.runOps, hl] using this
      | prev =>
          have hb := StepCtrl.previousStep_bounds c st hne h0 h1
          have hl := StepCtrl.previousStep_length c st
          have hne' : (StepCtrl.previousStep c st).1.steps ≠ [] := by
            intro hcon
            rw [hcon] at hl
            exact hne (List.eq_nil_of_length_eq_zero hl.symm)
          have := ih (StepCtrl.previousStep c st).1 (StepCtrl.previousStep c st).2
            hne' hb.1 (by rw [hl]; exact hb.2)
          simpa [StepCtrl.runOps, hl] using this

/-- C1 sample: a two-step controller and a mixed call sequence. -/
def exC1 : Ctrl :=
  ⟨[⟨"prevPage", .mk baseCfg [], .mk false false none []⟩,
    ⟨"nextPage", .mk baseCfg [], .mk false false none []⟩], 0⟩

def exOps1 : List NavOp := [.next, .next, .prev, .prev, .prev, .next]

theorem stepctrl_cursor_stays_in_bounds_witness :
    exC1.steps ≠ [] ∧ 0 ≤ exC1.currentStep ∧
      exC1.currentStep ≤ (exC1.steps.length : Int) - 1 ∧
      (0 ≤ (StepCtrl.runOps exC1 exSt exOps1).1.currentStep ∧
        (StepCtrl.runOps exC1 exSt exOps1).1.currentStep ≤
          ((StepCtrl.runOps exC1 exSt exOps1).1.steps.length : Int) - 1 ∧
        (StepCtrl.runOps exC1 exSt exOps1).1.steps.length =
          exC1.steps.length) :=
  ⟨by simp [exC1], by decide, by decide,
    stepctrl_cursor_stays_in_bounds exC1 exSt exOps1 (by simp [exC1])
      (by decide) (by decide)⟩

/-- Forward execution of the step at the cursor never moves the
cursor. -/
theorem StepCtrl.execAt_cursor (c : Ctrl) (st : St) :
    (StepCtrl.execAt c st).1.currentStep = c.currentStep := by
  unfold StepCtrl.execAt
  repeat' (first | rfl | split)

/-- Forward execution of the step at the cursor keeps the step count. -/
theorem StepCtrl.execAt_length (c : Ctrl) (st : St) :
    (StepCtrl.execAt c st).1.steps.length = c.steps.length := by
  unfold StepCtrl.execAt
  repeat' (first | rfl | split | simp only [List.length_set])

/-- Reverse execution of the step at the cursor never moves the
cursor. -/
theorem StepCtrl.execRevAt_cursor (c : Ctrl) (st : St) :
    (StepCtrl.execRevAt c st).1.currentStep = c.currentStep := by
  unfold StepCtrl.execRevAt
  repeat' (first | rfl | split)

/-- Reverse execution of the step at the cursor keeps the step count. -/
theorem StepCtrl.execRevAt_length (c : Ctrl) (st : St) :
    (StepCtrl.execRevAt c st).1.steps.length = c.steps.length := by
  unfold StepCtrl.execRevAt
  repeat' (first | rfl | split | simp only [List.length_set])

/-- At the last index, `nextStep` is the pre-execution finish stage
followed by forward execution of the same last step: the clamped
increment leaves the cursor where it is. -/
theorem StepCtrl.nextStep_at_last (c : Ctrl) (st : St) (hne : c.steps ≠ [])
    (hcur : c.currentStep = (c.steps.length : Int) - 1) :
    StepCtrl.nextStep c st = StepCtrl.execAt c (StepCtrl.finishStage c st) := by
  have hlen : 0 < c.steps.length := List.length_pos.mpr hne
  have ht : c.currentStep.toNat < c.steps.length := by omega
  have hs := getStep_eq c.steps c.currentStep (by omega) ht
  obtain ⟨steps, cur⟩ := c
  simp only at hcur hs ht ⊢
  subst hcur
  unfold StepCtrl.nextStep StepCtrl.execAt StepCtrl.finishStage
  rw [hs]
  simp only []
  rw [if_pos (by omega : (steps.length : Int) - 1 + 1 ≥ (steps.length : Int))]
  rw [hs]

/-- At index 0, `previousStep` is exactly the reverse execution of the
step at index 0: the clamped decrement leaves the cursor at 0. -/
theorem StepCtrl.previousStep_at_zero (c : Ctrl) (st : St)
    (hne : c.steps ≠ []) (hcur : c.currentStep = 0) :
    StepCtrl.previousStep c st = StepCtrl.execRevAt c st := by
  have hlen : 0 < c.steps.length := List.length_pos.mpr hne
  have ht : c.currentStep.toNat < c.steps.length := by omega
  have hs := getStep_eq c.steps c.currentStep (by omega) ht
  obtain ⟨steps, cur⟩ := c
  simp only at hcur hs ht ⊢
  subst hcur
  unfold StepCtrl.previousStep StepCtrl.execRevAt
  rw [hs]
  repeat' (first | rfl | split)

/-- Iterated `nextStep` from the last index: the cursor never leaves
the last index and the step count is unchanged. -/
theorem StepCtrl.iterNext_at_last (n : Nat) (c : Ctrl) (st : St)
    (hne : c.steps ≠ []) (hcur : c.currentStep = (c.steps.length : Int) - 1) :
    (StepCtrl.iterNext n c st).1.currentStep = (c.steps.length : Int) - 1 ∧
      (StepCtrl.iterNext n c st).1.steps.length = c.steps.length := by
  induction n generalizing c st with
  | zero => exact ⟨hcur, rfl⟩
  | succ n ih =>
      have hlen : 0 < c.steps.length := List.length_pos.mpr hne
      have ht : c.currentStep.toNat < c.steps.length := by omega
      have hs := getStep_eq c.steps c.currentStep (by omega) ht
      have hl := StepCtrl.nextStep_length c st
      have hcur' : (StepCtrl.nextStep c st).1.currentStep =
          ((StepCtrl.nextStep c st).1.steps.length : Int) - 1 := by
        rw [StepCtrl.nextStep_cursor c st _ hs, hl]
        rw [if_pos (by omega)]
      have hne' : (StepCtrl.nextStep c st).1.steps ≠ [] := by
        intro hcon
        rw [hcon] at hl
        exact hne (List.eq_nil_of_length_eq_zero hl.symm)
      have := ih (StepCtrl.nextStep c st).1 (StepCtrl.nextStep c st).2
        hne' hcur'
      simp only [StepCtrl.iterNext]
      exact ⟨by rw [this.1, hl], by rw [this.2, hl]⟩

/-- Iterated `previousStep` from index 0: the cursor never leaves 0 and
the step count is unchanged. -/
theorem StepCtrl.iterPrev_at_zero (n : Nat) (c : Ctrl) (st : St)
    (hne : c.steps ≠ []) (hcur : c.currentStep = 0) :
    (StepCtrl.iterPrev n c st).1.currentStep = 0 ∧
      (StepCtrl.iterPrev n c st).1.steps.length = c.steps.length := by
  induction n generalizing c st with
  | zero => exact ⟨hcur, rfl⟩
  | succ n ih =>
      have hlen : 0 < c.steps.length := List.length_pos.mpr hne
      have ht : c.currentStep.toNat < c.steps.length := by omega
      have hs := getStep_eq c.steps c.currentStep (by omega) ht
      have hl := StepCtrl.previousStep_length c st
      have hcur' : (StepCtrl.previousStep c st).1.currentStep = 0 := by
        rw [StepCtrl.previousStep_cursor c st _ hs, hcur]
        norm_num
      have hne' : (StepCtrl.previousStep c st).1.steps ≠ [] := by
        intro hcon
        rw [hcon] at hl
        exact hne (List.eq_nil_of_length_eq_zero hl.symm)
      have := ih (StepCtrl.previousStep c st).1 (StepCtrl.previousStep c st).2
        hne' hcur'
      simp only [StepCtrl.iterPrev]
      exact ⟨this.1, by rw [this.2, hl]⟩

/-- Peeling the last of `n + 1` `nextStep` calls. -/
theorem StepCtrl.iterNext_succ_last (n : Nat) (c : Ctrl) (st : St) :
    StepCtrl.iterNext (n + 1) c st =
      StepCtrl.nextStep (StepCtrl.iterNext n c st).1
        (StepCtrl.iterNext n c st).2 := by
  induction n generalizing c st with
  | zero => rfl
  | succ n ih =>
      show StepCtrl.iterNext (n + 1) (StepCtrl.nextStep c st).1
          (StepCtrl.nextStep c st).2 = _
      rw [ih]
      rfl

/-- Peeling the last of `n + 1` `previousStep` calls. -/
theorem StepCtrl.iterPrev_succ_last (n : Nat) (c : Ctrl) (st : St) :
    StepCtrl.iterPrev (n + 1) c st =
      StepCtrl.previousStep (StepCtrl.iterPrev n c st).1
        (StepCtrl.iterPrev n c st).2 := by
  induction n generalizing c st with
  | zero => rfl
  | succ n ih =>
      show StepCtrl.iterPrev (n + 1) (StepCtrl.previousStep c st).1
          (StepCtrl.previousStep c st).2 = _
      rw [ih]
      rfl

/-- C2: with the cursor at the last index, any number of repeated
`nextStep` calls leaves the cursor at the last index, and each call
re-executes that last step (every call is the pre-execution finish
stage plus forward execution of the step at the unchanged last index);
with the cursor at 0, any number of repeated `previousStep` calls
leaves the cursor at 0, and each call re-executes index 0's reverse
action. -/
theorem stepctrl_boundary_repeat (c d : Ctrl) (st st2 : St) (n : Nat)
    (hc : c.steps ≠ []) (hccur : c.currentStep = (c.steps.length : Int) - 1)
    (hd : d.steps ≠ []) (hdcur : d.currentStep = 0) :
    ((StepCtrl.iterNext n c st).1.currentStep = (c.steps.length : Int) - 1 ∧
      StepCtrl.iterNext (n + 1) c st =
        StepCtrl.execAt (StepCtrl.iterNext n c st).1
          (StepCtrl.finishStage (StepCtrl.iterNext n c st).1
            (StepCtrl.iterNext n c st).2)) ∧
    ((StepCtrl.iterPrev n d st2).1.currentStep = 0 ∧
      StepCtrl.iterPrev (n + 1) d st2 =
        StepCtrl.execRevAt (StepCtrl.iterPrev n d st2).1
          (StepCtrl.iterPrev n d st2).2) := by
  have hcN := StepCtrl.iterNext_at_last n c st hc hccur
  have hdN := StepCtrl.iterPrev_at_zero n d st2 hd hdcur
  have hcne : (StepCtrl.iterNext n c st).1.steps ≠ [] := by
    intro hcon
    have := hcN.2
    rw [hcon] at this
    exact hc (List.eq_nil_of_length_eq_zero this.symm)
  have hdne : (StepCtrl.iterPrev n d st2).1.steps ≠ [] := by
    intro hcon
    have := hdN.2
    rw [hcon] at this
    exact hd (List.eq_nil_of_length_eq_zero this.symm)
  refine ⟨⟨hcN.1, ?_⟩, ⟨hdN.1, ?_⟩⟩
  · rw [StepCtrl.iterNext_succ_last]
    exact StepCtrl.nextStep_at_last _ _ hcne (by rw [hcN.1, hcN.2])
  · rw [StepCtrl.iterPrev_succ_last]
    exact StepCtrl.previousStep_at_zero _ _ hdne hdN.1

/-- C2 sample: a controller at its last index and one at index 0. -/
def exC2a : Ctrl :=
  ⟨[⟨"prevPage", .mk baseCfg [], .mk false false none []⟩,
    ⟨"nextPage", .mk baseCfg [], .mk false false none []⟩], 1⟩

def exC2b : Ctrl :=
  ⟨[⟨"prevPage", .mk baseCfg [], .mk false false none []⟩,
    ⟨"nextPage", .mk baseCfg [], .mk false false none []⟩], 0⟩

theorem stepctrl_boundary_repeat_witness :
    exC2a.steps ≠ [] ∧ exC2a.currentStep = (exC2a.steps.length : Int) - 1 ∧
      exC2b.steps ≠ [] ∧ exC2b.currentStep = 0 ∧
      (((StepCtrl.iterNext 3 exC2a exSt).1.currentStep =
          (exC2a.steps.length : Int) - 1 ∧
        StepCtrl.iterNext 4 exC2a exSt =
          StepCtrl.execAt (StepCtrl.iterNext 3 exC2a exSt).1
            (StepCtrl.finishStage (StepCtrl.iterNext 3 exC2a exSt).1
              (StepCtrl.iterNext 3 exC2a exSt).2)) ∧
       ((StepCtrl.iterPrev 3 exC2b exSt).1.currentStep = 0 ∧
        StepCtrl.iterPrev 4 exC2b exSt =
          StepCtrl.execRevAt (StepCtrl.iterPrev 3 exC2b exSt).1
            (StepCtrl.iterPrev 3 exC2b exSt).2)) :=
  ⟨by simp [exC2a], by decide, by simp [exC2b], by decide,
    stepctrl_boundary_repeat exC2a exC2b exSt exSt 3 (by simp [exC2a])
      (by decide) (by simp [exC2b]) (by decide)⟩

/-- C3: for a controller whose cursor is in range, `previousStep`
executes the reverse action of the step at the pre-decrement index and
only then decrements the cursor (clamped at 0), while `nextStep` first
finishes the current step's animation when it is an animation-step,
then advances the cursor (clamped at the last index), and then executes
the step at the post-increment index — the embedded functions coincide
with the staged spec-side definitions. -/
theorem stepctrl_exec_order_matches_spec (c : Ctrl) (st : St)
    (hne : c.steps ≠ []) (h0 : 0 ≤ c.currentStep)
    (h1 : c.currentStep ≤ (c.steps.length : Int) - 1) :
    StepCtrl.nextStep c st = StepCtrl.nextStepSpec c st ∧
      StepCtrl.previousStep c st = StepCtrl.previousStepSpec c st := by
  have hlen : 0 < c.steps.length := List.length_pos.mpr hne
  have ht : c.currentStep.toNat < c.steps.length := by omega
  have hs := getStep_eq c.steps c.currentStep h0 ht
  constructor
  · unfold StepCtrl.nextStep StepCtrl.nextStepSpec StepCtrl.execAt
      StepCtrl.advanceClamp StepCtrl.finishStage
    rw [hs]
  · unfold StepCtrl.previousStep StepCtrl.previousStepSpec
      StepCtrl.execRevAt StepCtrl.decClamp
    rw [hs]

theorem stepctrl_exec_order_matches_spec_witness :
    exC2a.steps ≠ [] ∧ 0 ≤ exC2a.currentStep ∧
      exC2a.currentStep ≤ (exC2a.steps.length : Int) - 1 ∧
      (StepCtrl.nextStep exC2a exSt = StepCtrl.nextStepSpec exC2a exSt ∧
        StepCtrl.previousStep exC2a exSt =
          StepCtrl.previousStepSpec exC2a exSt) :=
  ⟨by simp [exC2a], by decide, by decide,
    stepctrl_exec_order_matches_spec exC2a exSt (by simp [exC2a])
      (by decide) (by decide)⟩

/-- C4 (amended): when the step to execute has an unknown kind, both
navigation calls report the error (`console.error` then the object log)
and execute no step action — steps and DOM are untouched — but the
cursor still moves exactly as in the supported-kind paths: `nextStep`
advances it with clamping (the unknown kind is met at the
post-increment index, after the pre-execution finish stage), and
`previousStep` decrements it with clamping. -/
theorem stepctrl_unknown_kind_logs_and_clamps :
    (∀ (c : Ctrl) (st : St) (s1 s2 : Step),
      getStep c.steps c.currentStep = some s1 →
      getStep c.steps (StepCtrl.advanceClamp c).currentStep = some s2 →
      s2.type ≠ "prevPage" → s2.type ≠ "nextPage" → s2.type ≠ "anim" →
      StepCtrl.nextStep c st =
        (StepCtrl.advanceClamp c,
          ((StepCtrl.finishStage c st).emit
            .consoleErrorUnsupportedStep).emit .consoleLogObj)) ∧
    (∀ (c : Ctrl) (st : St) (s1 : Step),
      getStep c.steps c.currentStep = some s1 →
      s1.type ≠ "prevPage" → s1.type ≠ "nextPage" → s1.type ≠ "anim" →
      StepCtrl.previousStep c st =
        (StepCtrl.decClamp c,
          (st.emit .consoleErrorUnsupportedStep).emit .consoleLogObj)) := by
  constructor
  · intro c st s1 s2 h1 h2 hn1 hn2 hn3
    unfold StepCtrl.advanceClamp at h2 ⊢
    unfold StepCtrl.nextStep StepCtrl.finishStage
    rw [h1]
    simp only [] at h2 ⊢
    rw [h2]
    repeat' (first | rfl | contradiction | split | simp only [] | simp_all)
  · intro c st s1 h1 hn1 hn2 hn3
    unfold StepCtrl.previousStep StepCtrl.decClamp
    rw [h1]
    repeat' (first | rfl | contradiction | split | simp only [] | simp_all)

/-- C4 counterexample sample: a step list whose second entry has the
unknown kind "mystery". -/
def exC4 : Ctrl :=
  ⟨[⟨"prevPage", .mk baseCfg [], .mk false false none []⟩,
    ⟨"mystery", .mk baseCfg [], .mk false false none []⟩], 0⟩

/-- The same steps with the cursor on the unknown-kind entry. -/
def exC4b : Ctrl :=
  ⟨[⟨"prevPage", .mk baseCfg [], .mk false false none []⟩,
    ⟨"mystery", .mk baseCfg [], .mk false false none []⟩], 1⟩

/-- C4 counterexample: encountering an unknown step kind, `nextStep`
reports the error but the cursor still changes (0 to 1), and
`previousStep` likewise still decrements (1 to 0) — "no state change"
fails on the cursor. -/
theorem stepctrl_unknown_kind_moves_cursor :
    ((getStep exC4.steps 1).map Step.type = some "mystery" ∧
      Ev.consoleErrorUnsupportedStep ∈ (StepCtrl.nextStep exC4 exSt).2.trace ∧
      (StepCtrl.nextStep exC4 exSt).1.currentStep ≠ exC4.currentStep) ∧
    ((getStep exC4b.steps 1).map Step.type = some "mystery" ∧
      Ev.consoleErrorUnsupportedStep ∈
        (StepCtrl.previousStep exC4b exSt).2.trace ∧
      (StepCtrl.previousStep exC4b exSt).1.currentStep ≠
        exC4b.currentStep) := by
  refine ⟨⟨by decide, ?_, by decide⟩, ⟨by decide, ?_, by decide⟩⟩ <;> decide

theorem stepctrl_unknown_kind_logs_and_clamps_witness :
    (getStep exC4.steps exC4.currentStep =
        some ⟨"prevPage", .mk baseCfg [], .mk false false none []⟩ ∧
      getStep exC4.steps (StepCtrl.advanceClamp exC4).currentStep =
        some ⟨"mystery", .mk baseCfg [], .mk false false none []⟩ ∧
      StepCtrl.nextStep exC4 exSt =
        (StepCtrl.advanceClamp exC4,
          ((StepCtrl.finishStage exC4 exSt).emit
            .consoleErrorUnsupportedStep).emit .consoleLogObj)) ∧
    (getStep exC4b.steps exC4b.currentStep =
        some ⟨"mystery", .mk baseCfg [], .mk false false none []⟩ ∧
      StepCtrl.previousStep exC4b exSt =
        (StepCtrl.decClamp exC4b,
          (exSt.emit .consoleErrorUnsupportedStep).emit .consoleLogObj)) :=
  ⟨⟨rfl, rfl,
    stepctrl_unknown_kind_logs_and_clamps.1 exC4 exSt _ _ rfl rfl
      (by decide) (by decide) (by decide)⟩,
   ⟨rfl,
    stepctrl_unknown_kind_logs_and_clamps.2 exC4b exSt _ rfl
      (by decide) (by decide) (by decide)⟩⟩
